import Mathlib

/-!
# Verification of the nomad-events event router and sinks

A shallow embedding, in Lean 4, of the parts of the `nomad-events` Go
program that the specification's claims are about:

* the hierarchical routing engine (`internal/routing`, `Router.processRoutes`),
* the Slack structured-message builder (`internal/outputs`,
  `SlackTemplateEngine`),
* the Slack sink's empty-message suppression (`SlackOutput.Send`),
* the retry decorator (`internal/outputs/retry.go`),
* the ingest consumer's cursor and delivery loop (`internal/nomad`,
  `EventStream.connectAndStream`) and the job-diff enrichment,
* the template engine's error handling (`internal/template/engine.go`),
* the service manager's hot reload (`cmd/nomad-events/main.go`),
* configuration validation (`internal/config/config.go`).

Dynamic `interface{}` values are embedded as the inductive `Value`
(JSON-like tagged tree); Go maps `map[string]interface{}` are embedded as
association lists `List (String × Value)` (lookup-first semantics; the
configurations in question have unique keys).  External collaborators
(the CEL evaluator, the text/template library, the HTTP client, the
upstream API) are parameters of the embedded functions, exactly at the
call boundaries where the Go code invokes them.
-/

/-- Dynamic value, the embedding of Go `interface{}` data decoded from
JSON/YAML: `null` is the nil interface, `num` a JSON number (the payloads
of interest carry integral values), `map` a `map[string]interface{}`. -/
inductive Value : Type where
  | null : Value
  | bool : Bool → Value
  | num : Int → Value
  | str : String → Value
  | list : List Value → Value
  | map : List (String × Value) → Value

/-- Lookup in an embedded Go map (first binding wins). -/
def assocLookup (k : String) : List (String × Value) → Option Value
  | [] => none
  | (k', v) :: rest => if k' = k then some v else assocLookup k rest

/-- `m[k] = v` on an embedded Go map: overwrite the existing binding or append. -/
def assocSet (m : List (String × Value)) (k : String) (v : Value) :
    List (String × Value) :=
  match m with
  | [] => [(k, v)]
  | (k', v') :: rest => if k' = k then (k, v) :: rest else (k', v') :: assocSet rest k v

/-- The event record (`nomad.Event`).  `payload` and `diff` are dynamic
values; a nil interface is `Value.null`. -/
structure Event : Type where
  topic : String
  typ : String
  key : String
  ns : String
  index : Nat
  payload : Value
  diff : Value

/-- A compiled route node (`routing.routeNode` in `internal/routing`,
hierarchical version).  The compiled CEL program is embedded as its
evaluation function: given the evaluation context built from an event it
returns `some b` when evaluation succeeds with the boolean `b` (a
successful evaluation to a non-boolean compares unequal to `types.True`
and is embedded as `some false`), and `none` when evaluation returns an
error. -/
inductive RouteNode : Type where
  | node (filter : Event → Option Bool) (output : String)
      (shouldContinue : Bool) (children : List RouteNode)

/-- `Router.processRoutes`: depth-first traversal of one sibling list.
Mirrors the Go loop: an evaluation error skips the node; a match appends
the node's output (if non-empty), then the child outputs, and `break`s
out of the sibling loop when `shouldContinue` is false.  The second
component is the Go function's `error` return value. -/
def processRoutes (e : Event) : List RouteNode → List String × Option String
  | [] => ([], none)
  | .node filter output shouldContinue children :: rest =>
    match filter e with
    | none => processRoutes e rest
    | some b =>
      if b then
        let own := if output = "" then [] else [output]
        let child := if children.isEmpty then (([], none) : List String × Option String)
          else processRoutes e children
        match child.2 with
        | some _ => processRoutes e rest
        | none =>
          if shouldContinue then
            let restOut := processRoutes e rest
            (own ++ child.1 ++ restOut.1, restOut.2)
          else (own ++ child.1, none)
      else processRoutes e rest

/-- The compiled router (`routing.Router`). -/
structure Router : Type where
  routes : List RouteNode

/-- `Router.Route`: evaluate the whole tree against one event. -/
def Router.Route (r : Router) (e : Event) : List String × Option String :=
  processRoutes e r.routes

/-- Concrete event used in the witnesses: the spec's scenario
`{Topic:"Job", Type:"JobRegistered", Index:2}`. -/
def evJobReg : Event :=
  { topic := "Job", typ := "JobRegistered", key := "", ns := "", index := 2,
    payload := .null, diff := .null }

/-- Compiled form of the filter `event.Topic == 'Job'`. -/
def filtJob : Event → Option Bool := fun e => some (e.topic == "Job")

/-- Compiled form of the filter `event.Type == 'JobRegistered'`. -/
def filtJobReg : Event → Option Bool := fun e => some (e.typ == "JobRegistered")

/-- Compiled form of the empty filter (constant `true`). -/
def filtTrue : Event → Option Bool := fun _ => some true

/-- Modelled from the spec: `SlackTemplateEngine.evaluateCondition`, the
block-level `condition:` evaluator of the structured-message builder.
The engine version carrying condition support is absent from the source
tree; only its tests (`TestSlackTemplateEngineConditionEvaluation`) are
present.  Per the spec, the empty condition is true and an evaluation
error is treated as true so that the block is kept rather than dropped.
The CEL evaluation of a non-empty condition is the parameter `evalCEL`
(`none` = evaluation error). -/
def evaluateCondition (cond : String) (evalCEL : String → Option Bool) : Bool :=
  if cond = "" then true
  else
    match evalCEL cond with
    | none => true
    | some b => b

/-- A route filter whose evaluation always errors. -/
def filtErr : Event → Option Bool := fun _ => none

/-- A block-condition evaluator that always errors (malformed condition). -/
def evalCELFail : String → Option Bool := fun _ => none

/-- The template-data map type (`map[string]interface{}`). -/
abbrev Data := List (String × Value)

/-- `Except.toOption` written out (success value or `none`). -/
def exceptToOption : Except String α → Option α
  | .ok a => some a
  | .error _ => none

/-- `strings.TrimPrefix`: remove `pre` from the front of `s` if present
(at most once). -/
def trimPre (pre s : String) : String :=
  if pre.data.isPrefixOf s.data then String.mk (s.data.drop pre.data.length) else s

/-- The character-list worker behind `splitOnDot`; `acc` holds the
(reversed) characters of the current segment. -/
def splitOnDotAux : List Char → List Char → List String
  | [], acc => [String.mk acc.reverse]
  | c :: rest, acc =>
    if c = '.' then String.mk acc.reverse :: splitOnDotAux rest []
    else splitOnDotAux rest (c :: acc)

/-- `strings.Split(path, ".")`: split a string at every dot (the empty
string yields `[""]`, a leading dot an empty first segment). -/
def splitOnDot (s : String) : List String :=
  splitOnDotAux s.data []

/-- `SlackTemplateEngine.getNestedValue`'s walk over the split path:
every interior component must resolve to a nested map, the final
component is looked up directly; any miss is the error
`path not found: <path>`. -/
def getNested (path : String) : Data → List String → Except String Value
  | _, [] => .error ("path not found: " ++ path)
  | cur, [p] =>
    match assocLookup p cur with
    | some v => .ok v
    | none => .error ("path not found: " ++ path)
  | cur, p :: q :: rest =>
    match assocLookup p cur with
    | some (.map m) => getNested path m (q :: rest)
    | some _ => .error ("path not found: " ++ path)
    | none => .error ("path not found: " ++ path)

/-- `SlackTemplateEngine.getNestedValue`: resolve a dotted path against a
data map (`strings.Split(path, ".")` then walk). -/
def getNestedValue (data : Data) (path : String) : Except String Value :=
  getNested path data (splitOnDot path)

/-- `SlackTemplateEngine.convertToSlice`: a Go slice/array reflects to a
slice of its elements, anything else (maps, scalars, strings, nil) to
`nil`; in the `Value` embedding only `Value.list` is slice-shaped. -/
def convertToSlice : Value → Option (List Value)
  | .list xs => some xs
  | _ => none

/-- `SlackTemplateEngine.createItemContext`: shallow-copy the outer scope
and overlay the iteration element's fields (if the element is a mapping)
or bind the element to `Item` (otherwise). -/
def createItemContext (baseData : Data) (item : Value) : Data :=
  match item with
  | .map im => im.foldl (fun acc kv => assocSet acc kv.1 kv.2) baseData
  | _ => assocSet baseData "Item" item

/-- `SlackTemplateEngine.createTemplateItem`: remove the `range` key from
a mapping descriptor to produce the per-iteration template; a non-mapping
descriptor is returned unchanged. -/
def createTemplateItem : Value → Value
  | .map im => .map (im.filter (fun kv => kv.1 ≠ "range"))
  | v => v

/-- `SlackTemplateEngine.isRangeItem`: a descriptor carries a range
directive iff it is a mapping whose `range` key holds a string. -/
def isRangeItem : Value → Bool × String
  | .map m =>
    match assocLookup "range" m with
    | some (.str s) => (true, s)
    | _ => (false, "")
  | _ => (false, "")

/-- `SlackTemplateEngine.expandRangeItem`: resolve the (dot-stripped)
range path, require an iterable, then run the item processor once per
element over the synthesized per-iteration scope, keeping the successful
non-nil results.  Generic in the descriptor type `α` and result type `β`
exactly as the Go function is generic through `interface{}`;
`templateOf` is the `createTemplateItem` step (identity on non-mapping
descriptors such as `BlockConfig` structs). -/
def expandRangeItem {α β : Type} (templateOf : α → α) (rangeItem : α)
    (rangePath : String) (eventData : Data)
    (itemProcessor : α → Data → Except String β) : Except String (List β) :=
  match getNestedValue eventData (trimPre "." rangePath) with
  | .error e => .error e
  | .ok rangeData =>
    match convertToSlice rangeData with
    | none => .error "range data is not iterable"
    | some slice =>
      .ok (slice.filterMap (fun item =>
        exceptToOption
          (itemProcessor (templateOf rangeItem) (createItemContext eventData item))))

/-- A Slack text object (`slack.TextBlockObject`). -/
structure TextObj : Type where
  ttype : String
  text : String
  emoji : Bool
deriving DecidableEq

/-- A Slack select option (`slack.OptionBlockObject`). -/
structure SOption : Type where
  value : String
  text : TextObj
deriving DecidableEq

/-- A Slack interactive element (`slack.BlockElement`): button or static
select, the two element types the engine supports. -/
inductive SElement : Type where
  | button (text : TextObj) (actionId : String) (value : String) (url : String)
  | staticSelect (placeholder : Option TextObj) (actionId : String)
      (options : List SOption)
deriving DecidableEq

/-- A Slack block (`slack.Block`) in the forms the engine produces. -/
inductive SBlock : Type where
  | header (text : String)
  | divider
  | section (text : Option TextObj) (fields : List TextObj)
  | context (blockId : String) (elements : List TextObj)
  | actions (blockId : String) (elements : List SElement)
  | image (url alt : String) (blockId : String) (title : Option String)
deriving DecidableEq

/-- `outputs.BlockConfig`: the typed YAML block descriptor.  Fields that
are `interface{}` in Go are `Value` here with `.null` for absent. -/
structure BlockConfig : Type where
  btype : String
  text : Value
  fields : List Value
  elements : List Value
  options : List Value
  imageUrl : String
  altText : String
  title : Value
  label : Value
  hint : Value
  optional : Bool
  blockId : String

/-- `outputs.mapBlockConfig`: project a configuration mapping onto a
`BlockConfig` by per-field type assertions; keys of the wrong type and
unknown keys — including `range` — are dropped. -/
def mapBlockConfig (m : Data) : BlockConfig where
  btype := match assocLookup "type" m with | some (.str s) => s | _ => ""
  text := match assocLookup "text" m with | some v => v | none => .null
  fields := match assocLookup "fields" m with | some (.list xs) => xs | _ => []
  elements := match assocLookup "elements" m with | some (.list xs) => xs | _ => []
  options := match assocLookup "options" m with | some (.list xs) => xs | _ => []
  imageUrl := match assocLookup "image_url" m with | some (.str s) => s | _ => ""
  altText := match assocLookup "alt_text" m with | some (.str s) => s | _ => ""
  title := match assocLookup "title" m with | some v => v | none => .null
  label := match assocLookup "label" m with | some v => v | none => .null
  hint := match assocLookup "hint" m with | some v => v | none => .null
  optional := match assocLookup "optional" m with | some (.bool b) => b | _ => false
  blockId := match assocLookup "block_id" m with | some (.str s) => s | _ => ""

/-- The Slack template engine.  Its inner text renderer
(`template.Engine.ProcessTextWithData`) is embedded as the total function
`render`: the template engine's `processText` returns a nil error on
every path (see `Engine.processText` below), so rendering never fails. -/
structure SlackTemplateEngine : Type where
  render : String → Data → String

/-- `SlackTemplateEngine.processText`: only string text values render;
anything else is the error `text must be a string`. -/
def SlackTemplateEngine.processText (ste : SlackTemplateEngine) (text : Value)
    (eventData : Data) : Except String String :=
  match text with
  | .str s => .ok (ste.render s eventData)
  | _ => .error "text must be a string"

/-- `SlackTemplateEngine.parseTextConfig`: a bare string renders as
`mrkdwn`; a mapping supplies `type` (default `mrkdwn`), `text` and
`emoji`; anything else is the error `invalid text configuration`. -/
def SlackTemplateEngine.parseTextConfig (ste : SlackTemplateEngine)
    (textConfig : Value) (eventData : Data) : Except String TextObj :=
  match textConfig with
  | .str s => .ok ⟨"mrkdwn", ste.render s eventData, false⟩
  | .map tm =>
    let ttype := match assocLookup "type" tm with | some (.str s) => s | _ => ""
    let ttype := if ttype = "" then "mrkdwn" else ttype
    let textValue := match assocLookup "text" tm with | some (.str s) => s | _ => ""
    let emoji := match assocLookup "emoji" tm with | some (.bool b) => b | _ => false
    .ok ⟨ttype, ste.render textValue eventData, emoji⟩
  | _ => .error "invalid text configuration"

/-- `SlackTemplateEngine.processSingleTextField` (and the
`processTextField` range processor, which just forwards to it). -/
def SlackTemplateEngine.processSingleTextField (ste : SlackTemplateEngine)
    (field : Value) (eventData : Data) : Except String TextObj :=
  ste.parseTextConfig field eventData

/-- `SlackTemplateEngine.processFields`: per field, a range item expands
(errors from the expansion are swallowed by `continue`), a plain item is
parsed (errors are dropped).  The Go function's second return value is
the constant nil error and is omitted. -/
def SlackTemplateEngine.processFields (ste : SlackTemplateEngine) :
    List Value → Data → List TextObj
  | [], _ => []
  | f :: rest, eventData =>
    (match isRangeItem f with
     | (true, rangePath) =>
       match expandRangeItem createTemplateItem f rangePath eventData
           (fun it d => ste.processSingleTextField it d) with
       | .error _ => []
       | .ok xs => xs
     | (false, _) =>
       match ste.processSingleTextField f eventData with
       | .ok t => [t]
       | .error _ => []) ++ ste.processFields rest eventData

/-- `SlackTemplateEngine.processSingleContextElement` (and the
`processContextElement` range processor). -/
def SlackTemplateEngine.processSingleContextElement (ste : SlackTemplateEngine)
    (elem : Value) (eventData : Data) : Except String TextObj :=
  ste.parseTextConfig elem eventData

/-- `SlackTemplateEngine.processContextElements`: same shape as
`processFields`, over context elements.  The constant-nil error return is
omitted. -/
def SlackTemplateEngine.processContextElements (ste : SlackTemplateEngine) :
    List Value → Data → List TextObj
  | [], _ => []
  | el :: rest, eventData =>
    (match isRangeItem el with
     | (true, rangePath) =>
       match expandRangeItem createTemplateItem el rangePath eventData
           (fun it d => ste.processSingleContextElement it d) with
       | .error _ => []
       | .ok xs => xs
     | (false, _) =>
       match ste.processSingleContextElement el eventData with
       | .ok t => [t]
       | .error _ => []) ++ ste.processContextElements rest eventData

/-- `SlackTemplateEngine.createOption`: an option must be a mapping; its
`text` is parsed, its `value` rendered (rendering a string never errors). -/
def SlackTemplateEngine.createOption (ste : SlackTemplateEngine)
    (optionConfig : Value) (eventData : Data) : Except String SOption :=
  match optionConfig with
  | .map om =>
    match ste.parseTextConfig
        (match assocLookup "text" om with | some v => v | none => .null)
        eventData with
    | .error e => .error e
    | .ok textObj =>
      let value := match assocLookup "value" om with | some (.str s) => s | _ => ""
      .ok ⟨ste.render value eventData, textObj⟩
  | _ => .error "invalid option configuration"

/-- `SlackTemplateEngine.processSelectOptions`: same shape as
`processFields`, over select options.  The constant-nil error return is
omitted. -/
def SlackTemplateEngine.processSelectOptions (ste : SlackTemplateEngine) :
    List Value → Data → List SOption
  | [], _ => []
  | o :: rest, eventData =>
    (match isRangeItem o with
     | (true, rangePath) =>
       match expandRangeItem createTemplateItem o rangePath eventData
           (fun it d => ste.createOption it d) with
       | .error _ => []
       | .ok xs => xs
     | (false, _) =>
       match ste.createOption o eventData with
       | .ok t => [t]
       | .error _ => []) ++ ste.processSelectOptions rest eventData

/-- `SlackTemplateEngine.createButtonElement`: parse the button text,
then render `action_id`, `url` and `value` when non-empty. -/
def SlackTemplateEngine.createButtonElement (ste : SlackTemplateEngine)
    (elemMap : Data) (eventData : Data) : Except String SElement :=
  match ste.parseTextConfig
      (match assocLookup "text" elemMap with | some v => v | none => .null)
      eventData with
  | .error e => .error e
  | .ok textObj =>
    let actionId := match assocLookup "action_id" elemMap with
      | some (.str s) => s | _ => ""
    let value := match assocLookup "value" elemMap with
      | some (.str s) => s | _ => ""
    let url := match assocLookup "url" elemMap with
      | some (.str s) => s | _ => ""
    let actionId := if actionId ≠ "" then ste.render actionId eventData else actionId
    let url := if url ≠ "" then ste.render url eventData else url
    let value := if value ≠ "" then ste.render value eventData else value
    .ok (.button textObj actionId value url)

/-- `SlackTemplateEngine.createStaticSelectElement`: optional
placeholder (dropped on a parse error), options list processed when
present, `action_id` taken verbatim. -/
def SlackTemplateEngine.createStaticSelectElement (ste : SlackTemplateEngine)
    (elemMap : Data) (eventData : Data) : Except String SElement :=
  let placeholder := match assocLookup "placeholder" elemMap with
    | some p =>
      match ste.parseTextConfig p eventData with
      | .ok t => some t
      | .error _ => none
    | none => none
  let options := match assocLookup "options" elemMap with
    | some (.list os) => ste.processSelectOptions os eventData
    | _ => []
  let actionId := match assocLookup "action_id" elemMap with
    | some (.str s) => s | _ => ""
  .ok (.staticSelect placeholder actionId options)

/-- `SlackTemplateEngine.processElement` (used by
`processSingleActionElement`): an element must be a mapping with a string
`type` of `button` or `static_select`. -/
def SlackTemplateEngine.processElement (ste : SlackTemplateEngine)
    (elemConfig : Value) (eventData : Data) : Except String SElement :=
  match elemConfig with
  | .map em =>
    match assocLookup "type" em with
    | some (.str "button") => ste.createButtonElement em eventData
    | some (.str "static_select") => ste.createStaticSelectElement em eventData
    | some (.str t) => .error ("unsupported element type: " ++ t)
    | _ => .error "element type is required"
  | _ => .error "invalid element configuration"

/-- `SlackTemplateEngine.processActionElements`: same shape as
`processFields`, over action elements.  The constant-nil error return is
omitted. -/
def SlackTemplateEngine.processActionElements (ste : SlackTemplateEngine) :
    List Value → Data → List SElement
  | [], _ => []
  | el :: rest, eventData =>
    (match isRangeItem el with
     | (true, rangePath) =>
       match expandRangeItem createTemplateItem el rangePath eventData
           (fun it d => ste.processElement it d) with
       | .error _ => []
       | .ok xs => xs
     | (false, _) =>
       match ste.processElement el eventData with
       | .ok t => [t]
       | .error _ => []) ++ ste.processActionElements rest eventData

/-- `SlackTemplateEngine.createHeaderBlock`: the text value must be a
string; it renders into a plain-text header. -/
def SlackTemplateEngine.createHeaderBlock (ste : SlackTemplateEngine)
    (b : BlockConfig) (eventData : Data) : Except String SBlock :=
  match ste.processText b.text eventData with
  | .error e => .error e
  | .ok text => .ok (.header text)

/-- `SlackTemplateEngine.createSectionBlock`: optional text object (a
parse error aborts the block), then the fields (whose processing never
errors, so the Go `if err == nil` guard always takes them). -/
def SlackTemplateEngine.createSectionBlock (ste : SlackTemplateEngine)
    (b : BlockConfig) (eventData : Data) : Except String SBlock :=
  match (match b.text with
         | .null => Except.ok (Option.none)
         | t =>
           match ste.parseTextConfig t eventData with
           | .error e => .error e
           | .ok o => .ok (some o)) with
  | .error e => .error e
  | .ok textObj => .ok (.section textObj (ste.processFields b.fields eventData))

/-- `SlackTemplateEngine.createContextBlock`. -/
def SlackTemplateEngine.createContextBlock (ste : SlackTemplateEngine)
    (b : BlockConfig) (eventData : Data) : Except String SBlock :=
  .ok (.context b.blockId (ste.processContextElements b.elements eventData))

/-- `SlackTemplateEngine.createActionBlock`. -/
def SlackTemplateEngine.createActionBlock (ste : SlackTemplateEngine)
    (b : BlockConfig) (eventData : Data) : Except String SBlock :=
  .ok (.actions b.blockId (ste.processActionElements b.elements eventData))

/-- `SlackTemplateEngine.createImageBlock`: `image_url` and `alt_text`
are string fields so their rendering never errors; a non-string `title`
is dropped. -/
def SlackTemplateEngine.createImageBlock (ste : SlackTemplateEngine)
    (b : BlockConfig) (eventData : Data) : Except String SBlock :=
  let url := ste.render b.imageUrl eventData
  let alt := ste.render b.altText eventData
  let title := match b.title with
    | .null => none
    | t =>
      match ste.processText t eventData with
      | .ok s => some s
      | .error _ => none
  .ok (.image url alt b.blockId title)

/-- `SlackTemplateEngine.processBlock`: dispatch on the descriptor type;
`input` and unknown types are errors. -/
def SlackTemplateEngine.processBlock (ste : SlackTemplateEngine)
    (b : BlockConfig) (eventData : Data) : Except String SBlock :=
  match b.btype with
  | "header" => ste.createHeaderBlock b eventData
  | "divider" => .ok .divider
  | "section" => ste.createSectionBlock b eventData
  | "context" => ste.createContextBlock b eventData
  | "actions" => ste.createActionBlock b eventData
  | "image" => ste.createImageBlock b eventData
  | "input" => .error "input blocks not implemented yet"
  | t => .error ("unsupported block type: " ++ t)

/-- The `isRangeItem(blockConfig)` call inside `ProcessBlocks`: its
argument is the struct `BlockConfig`, not a `map[string]interface{}`, so
the type assertion inside `isRangeItem` always fails and the call always
yields `(false, "")` — `ProcessBlocks` never treats a `BlockConfig` as a
range item. -/
def isRangeItemBlockConfig (_ : BlockConfig) : Bool × String := (false, "")

/-- The body of `SlackTemplateEngine.ProcessBlocks` over prepared
template data: per descriptor, the (unreachable) range branch wraps
expansion errors; the normal branch processes the block and propagates
its error wrapped as `failed to process block`. -/
def SlackTemplateEngine.processBlocksWith (ste : SlackTemplateEngine) :
    List BlockConfig → Data → Except String (List SBlock)
  | [], _ => .ok []
  | b :: rest, eventData =>
    match isRangeItemBlockConfig b with
    | (true, rangePath) =>
      match expandRangeItem (fun x => x) b rangePath eventData
          (fun bc d => ste.processBlock bc d) with
      | .error e => .error ("failed to process range blocks: " ++ e)
      | .ok blks =>
        match ste.processBlocksWith rest eventData with
        | .error e => .error e
        | .ok tail => .ok (blks ++ tail)
    | (false, _) =>
      match ste.processBlock b eventData with
      | .error e => .error ("failed to process block: " ++ e)
      | .ok blk =>
        match ste.processBlocksWith rest eventData with
        | .error e => .error e
        | .ok tail => .ok (blk :: tail)

/-- `template.Engine.createTemplateData`: the template-data map built
from an event (`Payload` only when non-nil). -/
def createTemplateData (e : Event) : Data :=
  let base : Data :=
    [("Topic", .str e.topic), ("Type", .str e.typ), ("Key", .str e.key),
     ("Namespace", .str e.ns), ("Index", .num e.index)]
  match e.payload with
  | .null => base
  | p => base ++ [("Payload", p)]

/-- `SlackTemplateEngine.ProcessBlocks`. -/
def SlackTemplateEngine.ProcessBlocks (ste : SlackTemplateEngine)
    (blockConfigs : List BlockConfig) (e : Event) : Except String (List SBlock) :=
  ste.processBlocksWith blockConfigs (createTemplateData e)

/-- An engine whose renderer is the identity on the template text (any
fixed renderer works for the range-expansion facts; templates in the
counterexamples contain no directives, for which the real renderer is
also the identity). -/
def idEngine : SlackTemplateEngine := ⟨fun s _ => s⟩

/-- An upstream `api.Event` as received in a stream frame. -/
structure ApiEvent : Type where
  topic : String
  typ : String
  key : String
  index : Nat
  payload : Value

/-- Building the internal event from a frame event inside
`connectAndStream` (`Namespace` is set to the empty string, `Diff` starts
nil). -/
def toNomadEvent (ae : ApiEvent) : Event :=
  { topic := ae.topic, typ := ae.typ, key := ae.key, ns := "", index := ae.index,
    payload := ae.payload, diff := .null }

/-- The observable state of `nomad.EventStream`: the `lastIndex` cursor
plus the trace of events actually sent on the output channel (the trace
is not a Go struct field; it records the completed channel sends). -/
structure StreamState : Type where
  lastIndex : Nat
  delivered : List Event

/-- `NewEventStream` leaves `lastIndex` at its zero value. -/
def initialStreamState : StreamState := { lastIndex := 0, delivered := [] }

/-- The per-batch delivery loop of `EventStream.connectAndStream`: for
each frame event, build (and possibly enrich) the internal event, assign
`es.lastIndex = event.Index`, and only then select between the channel
send and context cancellation.  `budget` is the number of channel sends
that complete before cancellation wins the select; the Bool result is
`false` when the loop was aborted by cancellation (`ctx.Err()`
returned). -/
def deliverBatch (enrich : Event → Event) :
    Nat → StreamState → List ApiEvent → StreamState × Bool
  | _, st, [] => (st, true)
  | budget, st, ae :: rest =>
    let ev := enrich (toNomadEvent ae)
    let st1 : StreamState := { st with lastIndex := ae.index }
    match budget with
    | 0 => (st1, false)
    | b + 1 =>
      deliverBatch enrich b { st1 with delivered := st1.delivered ++ [ev] } rest

/-- The enrichment trigger inside `connectAndStream`: a job diff is
fetched exactly for `Job`/`JobRegistered` events whose payload is a
mapping whose `Job` entry is a mapping carrying a string `ID` and a
numeric `Version` greater than 1; the result is the job id passed to
`fetchJobDiff`. -/
def shouldFetchDiff (topic typ : String) (payload : Value) : Option String :=
  if topic = "Job" ∧ typ = "JobRegistered" then
    match payload with
    | .map pm =>
      match assocLookup "Job" pm with
      | some (.map jm) =>
        match assocLookup "ID" jm with
        | some (.str jobID) =>
          match assocLookup "Version" jm with
          | some (.num v) => if 1 < v then some jobID else none
          | _ => none
        | _ => none
      | _ => none
    | _ => none
  else none

/-- The enrichment step of `connectAndStream`: when the trigger fires,
the side-call (`EventStream.fetchJobDiff`, embedded as the parameter
`fetch`) is issued exactly once; its failure is only logged and the event
keeps a nil diff; on success the diff is attached. -/
def enrichEvent (fetch : String → Except String Value) (ev : Event) : Event :=
  match shouldFetchDiff ev.topic ev.typ ev.payload with
  | none => ev
  | some jobID =>
    match fetch jobID with
    | .error _ => ev
    | .ok d => { ev with diff := d }

/-- A Slack webhook message in the shape the current sink builds: the
top-level `text` and optional `blocks` (`none` = the `blocks` field
absent). -/
structure SlackMsg : Type where
  text : String
  blocks : Option (List SBlock)
deriving DecidableEq

/-- Modelled from the spec: the current `SlackOutput.formatEvent` (the
slack.go version carrying a top-level `text` template along with blocks
is absent from the source tree; only its tests, e.g.
`TestSlackOutputFormatEventWithTextTemplate`, are present).  Render the
text template (empty template → empty text), expand the configured
blocks through the structured-message builder (`expandBlocks` is that
call's result), propagating expansion errors. -/
def formatEventCur (render : String → String)
    (expandBlocks : Except String (List SBlock))
    (blockConfigs : List BlockConfig) (textTemplate : String) :
    Except String SlackMsg :=
  let text := if textTemplate = "" then "" else render textTemplate
  if blockConfigs.isEmpty then .ok ⟨text, none⟩
  else
    match expandBlocks with
    | .error e => .error e
    | .ok bs => .ok ⟨text, some bs⟩

/-- Modelled from the spec: `shouldSkipMessage` (absent from the source
tree; tested by `TestShouldSkipMessageFunction`): with blocks configured,
skip exactly when the expansion returned an empty block list and no text
template is configured; without block configs, skip when both the
rendered text and the template are empty. -/
def shouldSkipMessage (msg : SlackMsg) (blockConfigs : List BlockConfig)
    (textTemplate : String) : Bool :=
  if blockConfigs.isEmpty then
    msg.text == "" && textTemplate == ""
  else
    match msg.blocks with
    | some bs => bs.isEmpty && textTemplate == ""
    | none => false

/-- Modelled from the spec: the current `SlackOutput.Send` (absent from
the source tree; tested by `TestSlackOutputSkipsEmptyMessages`): format
the message, return success without any webhook call when
`shouldSkipMessage` says so, otherwise POST it.  The Bool component
records whether the HTTP request was issued; `post` is the webhook
call. -/
def slackSend (render : String → String)
    (expandBlocks : Except String (List SBlock))
    (blockConfigs : List BlockConfig) (textTemplate : String)
    (post : SlackMsg → Except String Unit) : Bool × Except String Unit :=
  match formatEventCur render expandBlocks blockConfigs textTemplate with
  | .error e => (false, .error e)
  | .ok msg =>
    if shouldSkipMessage msg blockConfigs textTemplate then (false, .ok ())
    else (true, post msg)

/-- `outputs.RetryConfig` (the fields `RetryOutput` keeps); durations in
milliseconds. -/
structure RetryConfig : Type where
  maxRetries : Nat
  baseDelay : Nat

/-- `NewRetryOutput`: zero values mean unconfigured and take the defaults
(3 attempts, 1 s base delay). -/
def NewRetryOutput (config : RetryConfig) : RetryConfig :=
  { maxRetries := if config.maxRetries = 0 then 3 else config.maxRetries,
    baseDelay := if config.baseDelay = 0 then 1000 else config.baseDelay }

/-- The trace of one `RetryOutput.Send`: how many times the wrapped sink
was invoked, the sequence of backoff sleeps, and the final result
(`none` = nil error; `some (n, e)` = the wrapped
`failed to send event after n attempts` error carrying the last
underlying error `e`). -/
structure RetryTrace : Type where
  invocations : Nat
  sleeps : List Nat
  result : Option (Nat × String)
deriving DecidableEq

/-- The attempt loop of `RetryOutput.Send`.  The wrapped sink is embedded
as the function `sink` from the 1-based attempt number to that attempt's
outcome for this event (`none` = success).  `attempt` is the loop
counter, `remaining = maxRetries - attempt + 1` the number of attempts
left (zero also covers `maxRetries = 0`, where the loop body never runs),
`lastErr` the last error seen.  A failure sleeps
`baseDelay * 2^(attempt-1)` unless it was the final attempt. -/
def retryLoop (sink : Nat → Option String) (baseDelay maxRetries : Nat) :
    Nat → Nat → String → RetryTrace
  | _, 0, lastErr => ⟨0, [], some (maxRetries, lastErr)⟩
  | attempt, r + 1, _ =>
    match sink attempt with
    | none => ⟨1, [], none⟩
    | some e =>
      if r = 0 then ⟨1, [], some (maxRetries, e)⟩
      else
        let delay := baseDelay * 2 ^ (attempt - 1)
        let rest := retryLoop sink baseDelay maxRetries (attempt + 1) r e
        ⟨rest.invocations + 1, delay :: rest.sleeps, rest.result⟩

/-- `RetryOutput.Send` for one event. -/
def retrySend (cfg : RetryConfig) (sink : Nat → Option String) : RetryTrace :=
  retryLoop sink cfg.baseDelay cfg.maxRetries 1 cfg.maxRetries ""

/-- `template.Engine.processText`: the text/template library's parse and
execute steps are external collaborators, passed as parameters (`α` is
the parsed-template type).  A parse error or an execution error yields
the original template text with a nil error; the `Option String` result
component is the Go function's error return. -/
def Engine.processText {α : Type} (parse : String → Except String α)
    (execute : α → Data → Except String String)
    (text : String) (eventData : Data) : String × Option String :=
  match parse text with
  | .error _ => (text, none)
  | .ok tmpl =>
    match execute tmpl eventData with
    | .error _ => (text, none)
    | .ok s => (s, none)

/-- The reloadable components held by `main.ServiceManager`: the router
and the output manager pointers, generic in their types. -/
structure SMState (ρ μ : Type) : Type where
  router : ρ
  outputManager : μ

/-- `ServiceManager.reloadConfig`: load and validate the configuration,
build the new router, build the new output manager — each stage's
failure returns the wrapped error without touching the live state — and
only after all three succeed swap both components. -/
def reloadConfig {κ ρ μ : Type} (loadCfg : Except String κ)
    (newRouter : κ → Except String ρ) (newManager : κ → Except String μ)
    (st : SMState ρ μ) : SMState ρ μ × Option String :=
  match loadCfg with
  | .error e => (st, some ("failed to load configuration: " ++ e))
  | .ok cfg =>
    match newRouter cfg with
    | .error e => (st, some ("failed to create router: " ++ e))
    | .ok r =>
      match newManager cfg with
      | .error e => (st, some ("failed to create output manager: " ++ e))
      | .ok m => (⟨r, m⟩, none)

namespace config

/-- `config.RetryConfig` (the YAML form; `base_delay` is a duration
string). -/
structure RetryConfig : Type where
  maxRetries : Nat
  baseDelay : String

/-- `config.Output`: the per-sink configuration (its inline `Properties`
mapping is irrelevant to validation and omitted). -/
structure Output : Type where
  otype : String
  retry : Option RetryConfig

/-- `config.TLSConfig`. -/
structure TLSConfig : Type where
  enabled : Bool
  caCert : String
  clientCert : String
  clientKey : String
  serverName : String
  insecureSkipVerify : Bool

/-- `config.NomadConfig`. -/
structure NomadConfig : Type where
  address : String
  token : String
  tls : Option TLSConfig

/-- `config.Route`: the YAML routing rule. -/
inductive Route : Type where
  | mk (filter : String) (output : String) (contin : Option Bool)
      (routes : List Route)

/-- The `Filter` field of a route. -/
def Route.filter : Route → String
  | .mk f _ _ _ => f

/-- The `Output` field of a route. -/
def Route.output : Route → String
  | .mk _ o _ _ => o

/-- The `Routes` (children) field of a route. -/
def Route.routes : Route → List Route
  | .mk _ _ _ rs => rs

/-- `config.Config`: the whole configuration file (outputs as an
association list, standing for the Go map). -/
structure Config : Type where
  nomad : NomadConfig
  outputs : List (String × Output)
  routes : List Route

/-- Lookup of an output id in the outputs map. -/
def lookupOutput (k : String) : List (String × Output) → Option Output
  | [] => none
  | (k', v) :: rest => if k' = k then some v else lookupOutput k rest

/-- `Config.validateTLS`; the filesystem check behind `os.Stat` is the
parameter `fileExists`. -/
def validateTLS (fileExists : String → Bool) (n : NomadConfig) : Option String :=
  match n.tls with
  | none => none
  | some tls =>
    if !tls.enabled then none
    else if (tls.clientCert = "" ∧ tls.clientKey ≠ "")
        ∨ (tls.clientCert ≠ "" ∧ tls.clientKey = "") then
      some "both client_cert and client_key must be provided together"
    else if tls.caCert ≠ "" ∧ !fileExists tls.caCert then
      some ("ca_cert: file does not exist: " ++ tls.caCert)
    else if tls.clientCert ≠ "" ∧ !fileExists tls.clientCert then
      some ("client_cert: file does not exist: " ++ tls.clientCert)
    else if tls.clientKey ≠ "" ∧ !fileExists tls.clientKey then
      some ("client_key: file does not exist: " ++ tls.clientKey)
    else none

/-- The output-type pass of `Config.validate`: the first output without a
type is reported (the Go map iteration order is arbitrary; whether SOME
error is reported is order-independent). -/
def firstBadOutput : List (String × Output) → Option String
  | [] => none
  | (name, o) :: rest =>
    if o.otype = "" then some ("output " ++ name ++ ": type is required")
    else firstBadOutput rest

mutual

/-- `Config.validateRoute`: a route needs an output or children; a named
output must exist; a non-empty filter may not exceed 1000 characters;
children are validated recursively. -/
def validateRoute (outputs : List (String × Output)) : Route → Option String
  | .mk filter output _ routes =>
    if output = "" ∧ routes.isEmpty = true then
      some "route must have either an output or child routes"
    else if output ≠ "" ∧ (lookupOutput output outputs).isNone = true then
      some ("output does not exist: " ++ output)
    else if filter ≠ "" ∧ 1000 < filter.length then
      some "filter expression is too long (max 1000 characters)"
    else validateRoutes outputs routes

/-- The loop over a route list inside `Config.validate` /
`validateRoute`: first error wins. -/
def validateRoutes (outputs : List (String × Output)) : List Route → Option String
  | [] => none
  | r :: rest =>
    match validateRoute outputs r with
    | some e => some e
    | none => validateRoutes outputs rest

end

/-- `Config.validate`: address required, TLS validated, at least one
output, every output typed, at least one route, every route valid.
`LoadConfig` calls this after parsing and fails with its error. -/
def Config.validate (fileExists : String → Bool) (c : Config) : Option String :=
  if c.nomad.address = "" then some "nomad.address is required"
  else
    match validateTLS fileExists c.nomad with
    | some e => some e
    | none =>
      if c.outputs.isEmpty then some "at least one output must be defined"
      else
        match firstBadOutput c.outputs with
        | some e => some e
        | none =>
          if c.routes.isEmpty then some "at least one route must be defined"
          else validateRoutes c.outputs c.routes

end config

/-- A concrete header block descriptor (used in witnesses). -/
def hdrCfg : BlockConfig :=
  { btype := "header", text := .str "T", fields := [], elements := [],
    options := [], imageUrl := "", altText := "", title := .null,
    label := .null, hint := .null, optional := false, blockId := "" }

/-- A concrete `Job/JobRegistered` event whose payload carries
`Job.ID = "x"` and `Job.Version = 2` (triggers the diff side-call). -/
def evV2 : Event :=
  { topic := "Job", typ := "JobRegistered", key := "", ns := "", index := 9,
    payload := .map [("Job", .map [("ID", .str "x"), ("Version", .num 2)])],
    diff := .null }

/-- `processRoutes` never reports an error: every code path of the Go
function returns a nil error (child errors are checked but cannot occur). -/
theorem processRoutes_err_none (e : Event) (rs : List RouteNode) :
    (processRoutes e rs).2 = none := by
  refine processRoutes.induct e (fun l => (processRoutes e l).2 = none)
    ?_ ?_ ?_ ?_ ?_ ?_ rs
  · simp [processRoutes]
  · intro filter output shouldContinue children rest hf ih
    simp only [processRoutes, hf]
    exact ih
  · intro filter output shouldContinue children rest child val hchild hf ihc ihr
    exfalso
    revert hchild
    simp only [child]
    by_cases hemp : children.isEmpty <;> simp [hemp, ihc]
  · intro filter output children rest child hchild hf ihc ihr
    simp only [processRoutes, hf, if_true]
    revert hchild
    simp only [child]
    by_cases hemp : children.isEmpty <;> intro hchild <;>
      simp [hemp, hchild, ihr, ihc]
  · intro filter output shouldContinue children rest child hchild hsc hf ihc
    simp only [processRoutes, hf, if_true]
    revert hchild
    simp only [child]
    by_cases hemp : children.isEmpty <;> intro hchild <;>
      simp [hemp, hchild, hsc, ihc]
  · intro filter output shouldContinue children rest b hf hb ih
    simp only [processRoutes, hf]
    simp only [Bool.not_eq_true] at hb
    simp [hb]
    exact ih

/-- C1: during one traversal level, a rule that matches and has
`continue=false` stops the visiting of the siblings after it at that
level, while the matched rule's own sink id (if any) and its children's
outputs are still emitted; the children's own sibling list is processed
by the very same `processRoutes` regardless of the flag; and a rule that
does not match (evaluation error or a non-`true` result) never stops its
siblings regardless of its `continue` flag. -/
theorem routeContinueStopsSiblings (e : Event) (filter : Event → Option Bool)
    (output : String) (cont : Bool) (children rest : List RouteNode) :
    (filter e = some true →
      (processRoutes e (.node filter output cont children :: rest)).1 =
        (if output = "" then [] else [output]) ++ (processRoutes e children).1 ++
          (if cont then (processRoutes e rest).1 else []))
    ∧ (filter e ≠ some true →
      processRoutes e (.node filter output cont children :: rest) =
        processRoutes e rest) := by
  constructor
  · intro hf
    simp only [processRoutes, hf, if_true]
    have hc := processRoutes_err_none e children
    by_cases hemp : children.isEmpty
    · have hnil : children = [] := by
        cases children with
        | nil => rfl
        | cons a l => simp [List.isEmpty] at hemp
      subst hnil
      cases cont <;> simp [processRoutes]
    · simp only [hemp, dif_neg, if_false, Bool.false_eq_true]
      rw [hc]
      cases cont <;> simp
  · intro hne
    cases hff : filter e with
    | none => simp [processRoutes, hff]
    | some b =>
      cases b with
      | true => exact absurd hff hne
      | false => simp [processRoutes, hff]

/-- Witness for C1, the spec's "hierarchical with continue=false"
scenario: the Job branch (no own sink id, `continue=false`, one child
routing to `j`) suppresses the catch-all sibling for a
`Job/JobRegistered` event. -/
theorem routeContinueStopsSiblings_w :
    (processRoutes evJobReg (.node filtJob "" false
        [.node filtJobReg "j" true []] :: [.node filtTrue "all" true []])).1 =
      (if "" = "" then [] else [""]) ++
        (processRoutes evJobReg [.node filtJobReg "j" true []]).1 ++
        (if false then (processRoutes evJobReg [.node filtTrue "all" true []]).1 else []) :=
  (routeContinueStopsSiblings evJobReg filtJob "" false
    [.node filtJobReg "j" true []] [.node filtTrue "all" true []]).1 (by decide)

/-- C2: predicate-evaluation errors never escape and are handled
asymmetrically.  A route-filter evaluation error makes `processRoutes`
skip exactly that node — the traversal of all other rules is unchanged —
and `Router.Route` returns a nil error for every event and tree, whereas
a block-level condition evaluation error in the structured-message
builder yields `true`, keeping the block. -/
theorem evalErrorAsymmetry :
    (∀ (e : Event) (filter : Event → Option Bool) (output : String) (cont : Bool)
        (children rest : List RouteNode), filter e = none →
        processRoutes e (.node filter output cont children :: rest) =
          processRoutes e rest)
    ∧ (∀ (r : Router) (e : Event), (r.Route e).2 = none)
    ∧ (∀ (cond : String) (evalCEL : String → Option Bool),
        evalCEL cond = none → evaluateCondition cond evalCEL = true) := by
  refine ⟨?_, ?_, ?_⟩
  · intro e filter output cont children rest hf
    simp [processRoutes, hf]
  · intro r e
    exact processRoutes_err_none e r.routes
  · intro cond evalCEL h
    unfold evaluateCondition
    by_cases hc : cond = "" <;> simp [hc, h]

/-- Witness for C2: a rule whose filter errors is skipped while its
catch-all sibling still matches, and a malformed block condition is
treated as true. -/
theorem evalErrorAsymmetry_w :
    processRoutes evJobReg
        (.node filtErr "x" true [] :: [.node filtTrue "all" true []]) =
      processRoutes evJobReg [.node filtTrue "all" true []]
    ∧ evaluateCondition "invalid..syntax" evalCELFail = true :=
  ⟨evalErrorAsymmetry.1 evJobReg filtErr "x" true [] [.node filtTrue "all" true []] rfl,
   evalErrorAsymmetry.2.2 "invalid..syntax" evalCELFail rfl⟩

/-- C5 (counterexample): a block-level descriptor carrying a range
directive whose dotted path does not resolve is NOT expanded to zero
items — `mapBlockConfig` drops the `range` key and `ProcessBlocks` never
treats a `BlockConfig` as a range item, so the block is emitted exactly
once.  Concretely: the descriptor mapping `{type: divider,
range: .missing.path}` carries a range directive, the path does not
resolve in the data scope, and yet expansion produces one block, not
zero. -/
theorem rangeMissingBlockLevel_cex :
    isRangeItem (.map [("type", Value.str "divider"),
        ("range", Value.str ".missing.path")]) = (true, ".missing.path")
    ∧ getNestedValue [("Topic", Value.str "Node")] (trimPre "." ".missing.path")
        = .error "path not found: missing.path"
    ∧ idEngine.processBlocksWith
        [mapBlockConfig [("type", .str "divider"), ("range", .str ".missing.path")]]
        [("Topic", .str "Node")] = .ok [.divider]
    ∧ idEngine.processBlocksWith
        [mapBlockConfig [("type", .str "divider"), ("range", .str ".missing.path")]]
        [("Topic", .str "Node")] ≠ .ok [] :=
  ⟨rfl, rfl, rfl, by
    intro h
    rw [show idEngine.processBlocksWith
        [mapBlockConfig [("type", .str "divider"), ("range", .str ".missing.path")]]
        [("Topic", .str "Node")] = .ok [.divider] from rfl] at h
    simp at h⟩

/-- C5 (amended): for field, context-element, action-element and
select-option descriptors, a range directive whose dotted path does not
resolve yields zero items and the surrounding expansion continues
without error (the sibling descriptors are processed unchanged).  A
block-level descriptor, by contrast, never carries a range directive
after `mapBlockConfig` — `ProcessBlocks`'s `isRangeItem` check on the
`BlockConfig` struct always yields `(false, "")` — so such a block is
expanded exactly once as a normal block. -/
theorem rangeMissingPathYieldsNothing (ste : SlackTemplateEngine)
    (item : Value) (rangePath : String) (rest : List Value) (eventData : Data)
    (msg : String)
    (hrange : isRangeItem item = (true, rangePath))
    (hmiss : getNestedValue eventData (trimPre "." rangePath) = .error msg) :
    ste.processFields (item :: rest) eventData = ste.processFields rest eventData
    ∧ ste.processContextElements (item :: rest) eventData
        = ste.processContextElements rest eventData
    ∧ ste.processActionElements (item :: rest) eventData
        = ste.processActionElements rest eventData
    ∧ ste.processSelectOptions (item :: rest) eventData
        = ste.processSelectOptions rest eventData
    ∧ (∀ (b : BlockConfig), isRangeItemBlockConfig b = (false, ""))
    ∧ (∀ (b : BlockConfig) (restB : List BlockConfig) (blk : SBlock)
        (tail : List SBlock),
        ste.processBlock b eventData = .ok blk →
        ste.processBlocksWith restB eventData = .ok tail →
        ste.processBlocksWith (b :: restB) eventData = .ok (blk :: tail)) := by
  refine ⟨?_, ?_, ?_, ?_, fun b => rfl, ?_⟩
  · simp [SlackTemplateEngine.processFields, hrange, expandRangeItem, hmiss]
  · simp [SlackTemplateEngine.processContextElements, hrange, expandRangeItem, hmiss]
  · simp [SlackTemplateEngine.processActionElements, hrange, expandRangeItem, hmiss]
  · simp [SlackTemplateEngine.processSelectOptions, hrange, expandRangeItem, hmiss]
  · intro b restB blk tail hb htail
    simp [SlackTemplateEngine.processBlocksWith, isRangeItemBlockConfig, hb, htail]

/-- Witness for the amended C5: the test scenario
(`.Payload.NonExistentServices` absent from the scope) — the range field
contributes nothing and its static sibling is processed unchanged. -/
theorem rangeMissingPathYieldsNothing_w :
    idEngine.processFields
        [Value.map [("range", Value.str ".Payload.NonExistentServices"),
            ("type", Value.str "mrkdwn"), ("text", Value.str "n")],
         Value.map [("type", Value.str "plain_text"),
            ("text", Value.str "Static field")]]
        [("Topic", Value.str "Node")]
      = idEngine.processFields
          [Value.map [("type", Value.str "plain_text"),
              ("text", Value.str "Static field")]]
          [("Topic", Value.str "Node")] :=
  (rangeMissingPathYieldsNothing idEngine
    (Value.map [("range", Value.str ".Payload.NonExistentServices"),
        ("type", Value.str "mrkdwn"), ("text", Value.str "n")])
    ".Payload.NonExistentServices"
    [Value.map [("type", Value.str "plain_text"),
        ("text", Value.str "Static field")]]
    [("Topic", Value.str "Node")]
    "path not found: Payload.NonExistentServices" rfl rfl).1

/-- C3 (counterexample): `lastIndex` is assigned BEFORE the channel send.
Concretely, when cancellation aborts the very first send (budget 0) of a
single event with index 5, nothing is delivered and yet `lastIndex` is 5
— not 0, the index position of the last event actually sent on the
channel. -/
theorem lastIndexBeforeSend_cex :
    (deliverBatch (fun e => e) 0 initialStreamState
        [⟨"Job", "JobRegistered", "", 5, .null⟩]).1.delivered = []
    ∧ (deliverBatch (fun e => e) 0 initialStreamState
        [⟨"Job", "JobRegistered", "", 5, .null⟩]).1.lastIndex = 5
    ∧ (deliverBatch (fun e => e) 0 initialStreamState
        [⟨"Job", "JobRegistered", "", 5, .null⟩]).1.lastIndex ≠ 0
    ∧ (deliverBatch (fun e => e) 0 initialStreamState
        [⟨"Job", "JobRegistered", "", 5, .null⟩]).2 = false :=
  ⟨rfl, rfl, by decide, rfl⟩

/-- C3 (amended): the cursor starts at zero and is updated to each
event's index immediately BEFORE the delivery attempt.  When the whole
batch is delivered, the cursor holds the last event's index (or is
unchanged for an empty batch) and the delivered trace grows by the whole
batch; when context cancellation aborts the send at position `budget`,
exactly the first `budget` events were delivered and the cursor already
holds the index of the aborted, undelivered event — reconnection resumes
from it, not from the last delivered event. -/
theorem lastIndexCursorSemantics (enrich : Event → Event) :
    initialStreamState.lastIndex = 0
    ∧ (∀ (budget : Nat) (st : StreamState) (evs : List ApiEvent),
        evs.length ≤ budget →
        deliverBatch enrich budget st evs =
          ({ lastIndex := (evs.map (fun ae => ae.index)).getLastD st.lastIndex,
             delivered := st.delivered ++
               evs.map (fun ae => enrich (toNomadEvent ae)) },
           true))
    ∧ (∀ (budget : Nat) (st : StreamState) (evs : List ApiEvent)
        (h : budget < evs.length),
        deliverBatch enrich budget st evs =
          ({ lastIndex := (evs.get ⟨budget, h⟩).index,
             delivered := st.delivered ++
               (evs.take budget).map (fun ae => enrich (toNomadEvent ae)) },
           false)) := by
  refine ⟨rfl, ?_, ?_⟩
  · intro budget st evs
    induction evs generalizing budget st with
    | nil =>
      intro _
      simp [deliverBatch]
    | cons ae rest ih =>
      intro hle
      cases budget with
      | zero => simp at hle
      | succ b =>
        have hle' : rest.length ≤ b := by
          simpa [Nat.succ_le_succ_iff] using hle
        simp only [deliverBatch]
        rw [ih b _ hle']
        rw [List.map_cons, List.getLastD_cons]
        simp [List.append_assoc]
  · intro budget st evs
    induction evs generalizing budget st with
    | nil => intro h; simp at h
    | cons ae rest ih =>
      intro h
      cases budget with
      | zero => simp [deliverBatch]
      | succ b =>
        have h' : b < rest.length := by
          simpa [Nat.succ_lt_succ_iff] using h
        simp only [deliverBatch]
        rw [ih b _ h']
        simp [List.append_assoc]

/-- Witness for the amended C3: a two-event batch aborted after one
successful send — the first event is delivered, and the cursor holds 7,
the index of the aborted second event. -/
theorem lastIndexCursorSemantics_w :
    deliverBatch (fun e => e) 1 initialStreamState
        [⟨"Node", "A", "", 3, .null⟩, ⟨"Job", "B", "", 7, .null⟩]
      = ({ lastIndex := 7,
           delivered := [toNomadEvent ⟨"Node", "A", "", 3, .null⟩] }, false) := by
  have h := (lastIndexCursorSemantics (fun e => e)).2.2 1 initialStreamState
    [⟨"Node", "A", "", 3, .null⟩, ⟨"Job", "B", "", 7, .null⟩] (by decide)
  simpa [initialStreamState] using h

/-- C4: for the chat sink, when blocks were configured but their
expansion against the event produced zero blocks and no top-level text
template is configured, `send` returns success (nil error) without
issuing the webhook request; when at least one block survives the
expansion, or a text template is configured, the request is issued. -/
theorem emptyMessageSuppression (render : String → String)
    (blockConfigs : List BlockConfig) (textTemplate : String)
    (post : SlackMsg → Except String Unit) :
    (blockConfigs ≠ [] → textTemplate = "" →
      slackSend render (.ok []) blockConfigs textTemplate post = (false, .ok ()))
    ∧ (∀ bs : List SBlock, blockConfigs ≠ [] → bs ≠ [] →
      (slackSend render (.ok bs) blockConfigs textTemplate post).1 = true)
    ∧ (∀ bs : List SBlock, textTemplate ≠ "" →
      (slackSend render (.ok bs) blockConfigs textTemplate post).1 = true) := by
  refine ⟨?_, ?_, ?_⟩
  · intro hbc htt
    subst htt
    have hbe : blockConfigs.isEmpty = false := by
      cases blockConfigs with
      | nil => exact absurd rfl hbc
      | cons b l => rfl
    simp [slackSend, formatEventCur, shouldSkipMessage, hbe]
  · intro bs hbc hbs
    have hbe : blockConfigs.isEmpty = false := by
      cases blockConfigs with
      | nil => exact absurd rfl hbc
      | cons b l => rfl
    have hbse : bs.isEmpty = false := by
      cases bs with
      | nil => exact absurd rfl hbs
      | cons b l => rfl
    simp [slackSend, formatEventCur, shouldSkipMessage, hbe, hbse]
  · intro bs htt
    have htb : (textTemplate == "") = false := by
      simpa using htt
    cases hbe : blockConfigs.isEmpty <;>
      simp [slackSend, formatEventCur, shouldSkipMessage, hbe, htb]

/-- Witness for C4: one configured header block, empty expansion, no
text template — `send` succeeds with no webhook request even though the
webhook itself would fail. -/
theorem emptyMessageSuppression_w :
    slackSend (fun s => s) (.ok []) [hdrCfg] ""
        (fun _ => .error "failed to send Slack message") = (false, .ok ()) :=
  (emptyMessageSuppression (fun s => s) [hdrCfg] ""
    (fun _ => .error "failed to send Slack message")).1 (by simp) rfl

/-- The all-fail characterization of `retryLoop`: starting at `attempt`
with `r ≥ 1` attempts left, if every remaining attempt fails with the
error given by `errf`, the loop invokes the sink `r` times, sleeps
`baseDelay * 2^(attempt+j-1)` after every failure but the last, and ends
with the wrapped error carrying `maxRetries` and the last error. -/
theorem retryLoop_all_fail (sink : Nat → Option String) (errf : Nat → String)
    (baseDelay maxRetries : Nat) :
    ∀ (r a : Nat) (lastErr : String), 1 ≤ r →
    (∀ i, a ≤ i → i < a + r → sink i = some (errf i)) →
    retryLoop sink baseDelay maxRetries a r lastErr =
      ⟨r, (List.range (r - 1)).map (fun j => baseDelay * 2 ^ (a + j - 1)),
       some (maxRetries, errf (a + r - 1))⟩ := by
  intro r
  induction r with
  | zero => intro a lastErr h; simp at h
  | succ r' ih =>
    intro a lastErr _ hall
    have ha : sink a = some (errf a) := hall a (Nat.le_refl a) (by omega)
    cases hr' : r' with
    | zero =>
      subst hr'
      simp [retryLoop, ha]
    | succ r'' =>
      subst hr'
      have hrec := ih (a + 1) (errf a) (by omega)
        (fun i h1 h2 => hall i (by omega) (by omega))
      show (match sink a with
        | none => (⟨1, [], none⟩ : RetryTrace)
        | some e =>
          if r'' + 1 = 0 then ⟨1, [], some (maxRetries, e)⟩
          else
            let rest := retryLoop sink baseDelay maxRetries (a + 1) (r'' + 1) e
            ⟨rest.invocations + 1, baseDelay * 2 ^ (a - 1) :: rest.sleeps,
             rest.result⟩) = _
      rw [ha]
      simp only [Nat.succ_ne_zero, if_false, hrec]
      refine congrArg₂ (fun s r => RetryTrace.mk (r'' + 1 + 1) s r) ?_ ?_
      · have hr : r'' + 1 + 1 - 1 = r'' + 1 := by omega
        have hr2 : r'' + 1 - 1 = r'' := by omega
        rw [hr, hr2, List.range_succ_eq_map, List.map_cons, List.map_map]
        have h00 : a + 0 - 1 = a - 1 := by omega
        rw [h00]
        have hcomp : ((fun j => baseDelay * 2 ^ (a + j - 1)) ∘ Nat.succ)
            = (fun j => baseDelay * 2 ^ (a + 1 + j - 1)) := by
          funext j
          simp only [Function.comp_apply]
          have hj : a + Nat.succ j - 1 = a + 1 + j - 1 := by omega
          rw [hj]
        rw [hcomp]
      · have he : a + 1 + (r'' + 1) - 1 = a + (r'' + 1 + 1) - 1 := by omega
        rw [he]

/-- The succeed-after-j-failures characterization of `retryLoop`:
starting at attempt `a` with `r` attempts left, if the first `j < r`
attempts fail and attempt `a + j` succeeds, the sink is invoked `j + 1`
times and the result is a nil error. -/
theorem retryLoop_succeeds (sink : Nat → Option String) :
    ∀ (j r a baseDelay maxRetries : Nat) (lastErr : String), j < r →
    (∀ i, a ≤ i → i < a + j → (sink i).isSome) →
    sink (a + j) = none →
    (retryLoop sink baseDelay maxRetries a r lastErr).invocations = j + 1
    ∧ (retryLoop sink baseDelay maxRetries a r lastErr).result = none := by
  intro j
  induction j with
  | zero =>
    intro r a baseDelay maxRetries lastErr hjr hfail hsucc
    cases r with
    | zero => omega
    | succ r' =>
      rw [Nat.add_zero] at hsucc
      constructor <;> simp [retryLoop, hsucc]
  | succ j' ih =>
    intro r a baseDelay maxRetries lastErr hjr hfail hsucc
    cases r with
    | zero => omega
    | succ r' =>
      have ha : (sink a).isSome := hfail a (Nat.le_refl a) (by omega)
      obtain ⟨e, he⟩ := Option.isSome_iff_exists.mp ha
      have hr' : r' ≠ 0 := by omega
      have hrec := ih r' (a + 1) baseDelay maxRetries e (by omega)
        (fun i h1 h2 => hfail i (by omega) (by omega))
        (by rw [show a + 1 + j' = a + (j' + 1) from by omega]; exact hsucc)
      constructor <;> simp [retryLoop, he, hr', hrec.1, hrec.2]

/-- C6: for every wrapped sink and event, if the sink fails exactly
`k < max_attempts` times and then succeeds, the retry wrapper invokes it
exactly `k + 1` times and returns a nil error; if it fails on all
`max_attempts` attempts, the wrapper invokes it exactly `max_attempts`
times, sleeps `base_delay * 2^(attempt-1)` after every failed attempt but
the last, and returns the wrapped error naming the attempt count and the
last underlying error; an unconfigured retry block defaults to 3 attempts
and a 1 s base delay. -/
theorem retryWrapperSemantics (sink : Nat → Option String) (errf : Nat → String)
    (cfg : RetryConfig) (k : Nat) :
    (k < cfg.maxRetries →
      (∀ i, 1 ≤ i → i ≤ k → (sink i).isSome) →
      sink (k + 1) = none →
      (retrySend cfg sink).invocations = k + 1
      ∧ (retrySend cfg sink).result = none)
    ∧ (1 ≤ cfg.maxRetries →
      (∀ i, 1 ≤ i → i ≤ cfg.maxRetries → sink i = some (errf i)) →
      retrySend cfg sink =
        ⟨cfg.maxRetries,
         (List.range (cfg.maxRetries - 1)).map (fun j => cfg.baseDelay * 2 ^ j),
         some (cfg.maxRetries, errf cfg.maxRetries)⟩)
    ∧ NewRetryOutput ⟨0, 0⟩ = ⟨3, 1000⟩ := by
  refine ⟨?_, ?_, rfl⟩
  · intro hk hfail hsucc
    have h := retryLoop_succeeds sink k cfg.maxRetries 1 cfg.baseDelay
      cfg.maxRetries "" hk
      (fun i h1 h2 => hfail i h1 (by omega))
      (by rw [show 1 + k = k + 1 from by omega]; exact hsucc)
    exact ⟨h.1, h.2⟩
  · intro h1 hall
    have h := retryLoop_all_fail sink errf cfg.baseDelay cfg.maxRetries
      cfg.maxRetries 1 "" h1
      (fun i hi1 hi2 => hall i hi1 (by omega))
    rw [retrySend, h]
    have hexp : (fun j => cfg.baseDelay * 2 ^ (1 + j - 1))
        = (fun j => cfg.baseDelay * 2 ^ j) := by
      funext j
      have : 1 + j - 1 = j := by omega
      rw [this]
    rw [hexp]
    have : 1 + cfg.maxRetries - 1 = cfg.maxRetries := by omega
    rw [this]

/-- Witness for C6: the default 3 attempts against an always-failing
sink with base delay 7: three invocations, sleeps 7 and 14, and the
wrapped error naming 3 attempts and the last error. -/
theorem retryWrapperSemantics_w :
    retrySend ⟨3, 7⟩ (fun _ => some "boom") =
      ⟨3, (List.range (3 - 1)).map (fun j => 7 * 2 ^ j), some (3, "boom")⟩ :=
  (retryWrapperSemantics (fun _ => some "boom") (fun _ => "boom") ⟨3, 7⟩ 0).2.1
    (by decide) (fun i h1 h2 => rfl)

/-- C7 (counterexample): the claimed trigger condition is too weak — a
`Job/JobRegistered` event whose payload carries `Job.Version = 2 > 1` but
no `Job.ID` does NOT trigger the side-call, because the code additionally
requires a string `Job.ID` before consulting the version. -/
theorem diffSideCallNoID_cex :
    (1 : Int) < 2
    ∧ shouldFetchDiff "Job" "JobRegistered"
        (.map [("Job", .map [("Version", .num 2)])]) = none :=
  ⟨by decide, rfl⟩

/-- C7 (amended): the diff side-call is issued exactly for events with
topic `Job` and type `JobRegistered` whose payload is a mapping carrying
a `Job` mapping with a string `ID` and a numeric `Version > 1`; when the
side-call fails, the event is still forwarded unchanged with its diff
still nil (the failure is only logged, the fetch is consulted exactly
once); and a `Version = 1` payload never triggers the side-call. -/
theorem diffEnrichmentSemantics :
    (∀ (topic typ : String) (payload : Value),
      (shouldFetchDiff topic typ payload).isSome ↔
        (topic = "Job" ∧ typ = "JobRegistered" ∧
         ∃ pm jm jobID v, payload = .map pm
           ∧ assocLookup "Job" pm = some (.map jm)
           ∧ assocLookup "ID" jm = some (.str jobID)
           ∧ assocLookup "Version" jm = some (.num v) ∧ 1 < v))
    ∧ (∀ (ev : Event) (fetch : String → Except String Value),
        (∀ jobID, ∃ msg, fetch jobID = .error msg) → enrichEvent fetch ev = ev)
    ∧ (∀ (topic typ : String) (pm jm : Data),
        assocLookup "Job" pm = some (.map jm) →
        assocLookup "Version" jm = some (.num 1) →
        shouldFetchDiff topic typ (.map pm) = none) := by
  refine ⟨?_, ?_, ?_⟩
  · intro topic typ payload
    unfold shouldFetchDiff
    by_cases ht : topic = "Job" ∧ typ = "JobRegistered"
    · obtain ⟨ht1, ht2⟩ := ht
      subst ht1
      subst ht2
      rw [if_pos ⟨rfl, rfl⟩]
      cases payload with
      | map pm =>
        cases hj : assocLookup "Job" pm with
        | none => simp [hj]
        | some vj =>
          cases vj with
          | map jm =>
            cases hid : assocLookup "ID" jm with
            | none => simp [hj, hid]
            | some vid =>
              cases vid with
              | str jobID =>
                cases hv : assocLookup "Version" jm with
                | none => simp [hj, hid, hv]
                | some vv =>
                  cases vv with
                  | num v => by_cases h1 : (1 : Int) < v <;> simp [hj, hid, hv, h1]
                  | null => simp [hj, hid, hv]
                  | bool b => simp [hj, hid, hv]
                  | str s => simp [hj, hid, hv]
                  | list xs => simp [hj, hid, hv]
                  | map mm => simp [hj, hid, hv]
              | null => simp [hj, hid]
              | bool b => simp [hj, hid]
              | num n => simp [hj, hid]
              | list xs => simp [hj, hid]
              | map mm => simp [hj, hid]
          | null => simp [hj]
          | bool b => simp [hj]
          | num n => simp [hj]
          | str s => simp [hj]
          | list xs => simp [hj]
      | null => simp
      | bool b => simp
      | num n => simp
      | str s => simp
      | list xs => simp
    · rw [if_neg ht]
      simp only [Option.isSome_none, Bool.false_eq_true, false_iff]
      intro hcontra
      exact ht ⟨hcontra.1, hcontra.2.1⟩
  · intro ev fetch hfail
    unfold enrichEvent
    cases hs : shouldFetchDiff ev.topic ev.typ ev.payload with
    | none => rfl
    | some jobID =>
      obtain ⟨msg, hmsg⟩ := hfail jobID
      simp [hmsg]
  · intro topic typ pm jm hj hv
    unfold shouldFetchDiff
    by_cases ht : topic = "Job" ∧ typ = "JobRegistered"
    · rw [if_pos ht]
      cases hid : assocLookup "ID" jm with
      | none => simp [hj, hid]
      | some vid =>
        cases vid with
        | str jobID => simp [hj, hid, hv]
        | null => simp [hj, hid]
        | bool b => simp [hj, hid]
        | num n => simp [hj, hid]
        | list xs => simp [hj, hid]
        | map mm => simp [hj, hid]
    · rw [if_neg ht]

/-- Witness for the amended C7: a failing fetch on a genuinely
triggering event (`Job.ID = "x"`, `Job.Version = 2`) still forwards the
event unchanged, and the same payload with `Version = 1` never triggers
the side-call. -/
theorem diffEnrichmentSemantics_w :
    enrichEvent (fun _ => .error "boom") evV2 = evV2
    ∧ shouldFetchDiff "Job" "JobRegistered"
        (.map [("Job", .map [("ID", .str "x"), ("Version", .num 1)])]) = none :=
  ⟨diffEnrichmentSemantics.2.1 evV2 (fun _ => .error "boom")
      (fun _ => ⟨"boom", rfl⟩),
   diffEnrichmentSemantics.2.2 "Job" "JobRegistered"
      [("Job", .map [("ID", .str "x"), ("Version", .num 1)])]
      [("ID", .str "x"), ("Version", .num 1)] rfl rfl⟩

/-- C8: for every template string and data map, `Engine.processText`
never returns an error — a parse failure or an execution failure yields
the original unexpanded template string with a nil error. -/
theorem templateErrorsSwallowed {α : Type} (parse : String → Except String α)
    (execute : α → Data → Except String String) (text : String)
    (eventData : Data) :
    ((Engine.processText parse execute text eventData).2 = none)
    ∧ (∀ e, parse text = .error e →
        (Engine.processText parse execute text eventData).1 = text)
    ∧ (∀ tmpl e, parse text = .ok tmpl → execute tmpl eventData = .error e →
        (Engine.processText parse execute text eventData).1 = text) := by
  refine ⟨?_, ?_, ?_⟩
  · unfold Engine.processText
    cases hp : parse text with
    | error e => rfl
    | ok tmpl =>
      cases he : execute tmpl eventData with
      | error e => simp [he]
      | ok s => simp [he]
  · intro e hp
    simp [Engine.processText, hp]
  · intro tmpl e hp he
    simp [Engine.processText, hp, he]

/-- Witness for C8: a parser that rejects everything returns the
original template text unchanged with a nil error. -/
theorem templateErrorsSwallowed_w :
    (@Engine.processText Unit (fun _ => .error "parse error")
      (fun _ _ => .ok "") "broken template" []).1 = "broken template" :=
  (@templateErrorsSwallowed Unit (fun _ => .error "parse error")
    (fun _ _ => .ok "") "broken template" []).2.1 "parse error" rfl

/-- C9: a hot reload that fails at any stage — configuration load or
validation, router construction, or output-manager construction —
returns an error and leaves the live state (the router and
output-manager pointers) exactly as it was, so every subsequent route
and send call behaves as before the failed reload; moreover any reload
that does not succeed leaves the state untouched. -/
theorem reloadFailureLeavesState {κ ρ μ : Type} (loadCfg : Except String κ)
    (newRouter : κ → Except String ρ) (newManager : κ → Except String μ)
    (st : SMState ρ μ) :
    (∀ e, loadCfg = .error e →
      reloadConfig loadCfg newRouter newManager st =
        (st, some ("failed to load configuration: " ++ e)))
    ∧ (∀ cfg e, loadCfg = .ok cfg → newRouter cfg = .error e →
      reloadConfig loadCfg newRouter newManager st =
        (st, some ("failed to create router: " ++ e)))
    ∧ (∀ cfg r e, loadCfg = .ok cfg → newRouter cfg = .ok r →
      newManager cfg = .error e →
      reloadConfig loadCfg newRouter newManager st =
        (st, some ("failed to create output manager: " ++ e)))
    ∧ ((reloadConfig loadCfg newRouter newManager st).2 ≠ none →
      (reloadConfig loadCfg newRouter newManager st).1 = st) := by
  refine ⟨?_, ?_, ?_, ?_⟩
  · intro e he
    simp [reloadConfig, he]
  · intro cfg e hc hr
    simp [reloadConfig, hc, hr]
  · intro cfg r e hc hr hm
    simp [reloadConfig, hc, hr, hm]
  · intro hne
    unfold reloadConfig at hne ⊢
    cases hc : loadCfg with
    | error e => simp
    | ok cfg =>
      cases hr : newRouter cfg with
      | error e => simp [hr]
      | ok r =>
        cases hm : newManager cfg with
        | error e => simp [hr, hm]
        | ok m =>
          rw [hc] at hne
          simp [hr, hm] at hne

/-- Witness for C9: a failing loader leaves a concrete state `⟨1, 2⟩`
untouched and returns the wrapped error. -/
theorem reloadFailureLeavesState_w :
    reloadConfig (Except.error "bad yaml")
        (fun n => Except.ok (n + 1)) (fun n => Except.ok (n + 2))
        (⟨1, 2⟩ : SMState Nat Nat) =
      (⟨1, 2⟩, some ("failed to load configuration: " ++ "bad yaml")) :=
  (reloadFailureLeavesState (Except.error "bad yaml")
    (fun n => Except.ok (n + 1)) (fun n => Except.ok (n + 2))
    (⟨1, 2⟩ : SMState Nat Nat)).1 "bad yaml" rfl

/-- If some output in the map has an empty type, the output-type pass
reports an error. -/
theorem firstBadOutput_of_mem (outputs : List (String × config.Output)) :
    ∀ name o, (name, o) ∈ outputs → o.otype = "" →
    config.firstBadOutput outputs ≠ none := by
  induction outputs with
  | nil => intro name o h; cases h
  | cons p rest ih =>
    intro name o hmem hty
    obtain ⟨pn, po⟩ := p
    unfold config.firstBadOutput
    by_cases hp : po.otype = ""
    · simp [hp]
    · rw [if_neg hp]
      rcases List.mem_cons.mp hmem with heq | hmem'
      · exfalso
        apply hp
        have : pn = name ∧ po = o := by
          constructor <;> injection heq <;> simp_all
        rw [this.2, hty]
      · exact ih name o hmem' hty

/-- C10: beyond the validation rules the spec lists, `Config.validate`
(and hence `LoadConfig`) also fails whenever the outputs map is empty,
whenever the routes list is empty, and whenever any output omits its
type — a configuration with no outputs or no routes is never accepted. -/
theorem validateRejectsEmpty (fileExists : String → Bool) (c : config.Config) :
    (c.outputs = [] → c.validate fileExists ≠ none)
    ∧ (c.routes = [] → c.validate fileExists ≠ none)
    ∧ (∀ name o, (name, o) ∈ c.outputs → o.otype = "" →
        c.validate fileExists ≠ none) := by
  refine ⟨?_, ?_, ?_⟩
  · intro hout
    unfold config.Config.validate
    by_cases ha : c.nomad.address = ""
    · simp [ha]
    · rw [if_neg ha]
      cases htls : config.validateTLS fileExists c.nomad with
      | some e => simp [htls]
      | none => simp [htls, hout]
  · intro hrt
    unfold config.Config.validate
    by_cases ha : c.nomad.address = ""
    · simp [ha]
    · rw [if_neg ha]
      cases htls : config.validateTLS fileExists c.nomad with
      | some e => simp [htls]
      | none =>
        by_cases hoe : c.outputs.isEmpty
        · simp [htls, hoe]
        · cases hfb : config.firstBadOutput c.outputs with
          | some e => simp [htls, hoe, hfb]
          | none => simp [htls, hoe, hfb, hrt]
  · intro name o hmem hty
    unfold config.Config.validate
    by_cases ha : c.nomad.address = ""
    · simp [ha]
    · rw [if_neg ha]
      cases htls : config.validateTLS fileExists c.nomad with
      | some e => simp [htls]
      | none =>
        by_cases hoe : c.outputs.isEmpty
        · simp [htls, hoe]
        · cases hfb : config.firstBadOutput c.outputs with
          | some e => simp [htls, hoe, hfb]
          | none =>
            exact absurd hfb (firstBadOutput_of_mem c.outputs name o hmem hty)

/-- Witness for C10: a configuration with a valid address but no outputs
and no routes is rejected. -/
theorem validateRejectsEmpty_w :
    config.Config.validate (fun _ => true)
      { nomad := { address := "http://localhost:4646", token := "", tls := none },
        outputs := [], routes := [] } ≠ none :=
  (validateRejectsEmpty (fun _ => true)
    { nomad := { address := "http://localhost:4646", token := "", tls := none },
      outputs := [], routes := [] }).1 rfl
